import Mathlib

/-!
Verification development for the Reddit data-collection pipeline
(`reddit_scraper.py`, `database.py`, `config.py`).

Texts are modelled as `List Char` (a Python `str` is its sequence of
characters).  Python floats are modelled as exact rationals `ℚ`: every
number the scorer manipulates is a small dyadic/decimal constant, so the
rational semantics coincides with the source's intent.  Python exceptions
are modelled by `Except`: an attribute of an upstream submission object is
an `Except PyErr v` (PRAW attributes are fetched lazily and may raise).
`datetime.now()` is modelled by an explicit `now : Int` (seconds since the
epoch) threaded through the functions that call it.
-/

/-- ASCII model of Python `str.lower` applied to one character
(`reddit_scraper.py` line 387 applies `.lower()` to the combined text). -/
def pyLower (c : Char) : Char :=
  if 65 ≤ c.toNat ∧ c.toNat ≤ 90 then Char.ofNat (c.toNat + 32) else c

/-- Python whitespace for `str.split()` with no argument. -/
def isPySpace (c : Char) : Bool :=
  c = ' ' ∨ c = '\t' ∨ c = '\n' ∨ c = '\r' ∨ c = '\x0b' ∨ '\x0c' = c

/-- ASCII cased character (letter), for the `str.isupper` model. -/
def asciiAlpha (c : Char) : Bool :=
  (65 ≤ c.toNat ∧ c.toNat ≤ 90) ∨ (97 ≤ c.toNat ∧ c.toNat ≤ 122)

/-- ASCII lowercase letter. -/
def asciiLower (c : Char) : Bool :=
  97 ≤ c.toNat ∧ c.toNat ≤ 122

/-- Python `str.isupper`: at least one cased character and no lowercase
cased character (ASCII model). -/
def pyIsUpper (s : List Char) : Bool :=
  s.any asciiAlpha && !(s.any asciiLower)

/-- Helper for `countSub`: scan with a skip counter.  With skip 0, a
match at the current position counts and the scan resumes right after the
matched block (the remaining `p.length - 1` characters are skipped);
otherwise the scan advances one character. -/
def countSubAux (p : List Char) : Nat → List Char → Nat
  | _, [] => 0
  | 0, c :: t =>
    if p.isPrefixOf (c :: t) then countSubAux p (p.length - 1) t + 1
    else countSubAux p 0 t
  | k + 1, _ :: t => countSubAux p k t

/-- Python `t.count(p)` for nonempty `p`: number of non-overlapping
occurrences of `p` in `t`, scanning left to right (used in
`_analyze_keywords` and `_analyze_content_structure`).  On the empty
pattern this returns 0 where Python returns `len+1`; every pattern the
source counts is a nonempty literal. -/
def countSub (p s : List Char) : Nat := countSubAux p 0 s

/-- Python `p in t` substring test. -/
def isSubstr (p : List Char) : List Char → Bool
  | [] => decide (p = [])
  | c :: t => p.isPrefixOf (c :: t) || isSubstr p t

/-- Helper for `wordCount`: the Boolean records whether the scan is
currently inside a word (a maximal run of non-whitespace). -/
def wcAux (inWord : Bool) : List Char → Nat
  | [] => 0
  | c :: t =>
    if isPySpace c then wcAux false t
    else (if inWord then 0 else 1) + wcAux true t

/-- Python `len(t.split())`: the number of maximal whitespace-free runs
(`_analyze_keywords` line 448 uses only the length of the split). -/
def wordCount (t : List Char) : Nat := wcAux false t

/-- Character class of the URL-extraction regex at `reddit_scraper.py`
line 475.  The bracket expressions union to: `!` (0x21), the ASCII range
`$`–`_` (0x24–0x5F, which subsumes digits, uppercase letters and all the
individually listed punctuation), and lowercase `a`–`z`; the `%hh`
alternative is subsumed because `%` and hex digits are in the class. -/
def urlChar (c : Char) : Bool :=
  c.toNat = 33 ∨ (36 ≤ c.toNat ∧ c.toNat ≤ 95) ∨ (97 ≤ c.toNat ∧ c.toNat ≤ 122)

/-- Match of the literal head `http[s]?://` of the URL regex at a
position; returns the number of characters consumed (8 for `https://`,
7 for `http://`). -/
def matchHttp (s : List Char) : Option Nat :=
  if s.take 8 = ('h' :: 't' :: 't' :: 'p' :: 's' :: ':' :: '/' :: '/' :: []) then some 8
  else if s.take 7 = ('h' :: 't' :: 't' :: 'p' :: ':' :: '/' :: '/' :: []) then some 7
  else none

/-- Python `re.findall` of the URL regex: non-overlapping matches, each a
`http(s)://` head followed by a maximal nonempty run of `urlChar`s. -/
def findUrls : List Char → List (List Char)
  | [] => []
  | c :: t =>
    match h : matchHttp (c :: t) with
    | some n =>
      let r := (c :: t).drop n
      let run := r.takeWhile urlChar
      if run = [] then findUrls t
      else ((c :: t).take n ++ run) :: findUrls (r.drop run.length)
    | none => findUrls t
termination_by s => s.length
decreasing_by
  · simp only [List.length_cons]; omega
  · have hn : n = 8 ∨ n = 7 := by
      unfold matchHttp at h
      split at h
      · exact Or.inl (Option.some.inj h).symm
      · split at h
        · exact Or.inr (Option.some.inj h).symm
        · exact absurd h (by simp)
    rcases hn with h8 | h7 <;> simp only [List.length_drop, List.length_cons] <;> omega
  · simp only [List.length_cons]; omega

/-! ## Configuration (`config.py`) -/

/-- PROMOTIONAL_DETECTION promotional_keywords from `config.py`. -/
def promotionalKeywords : List (List Char) :=
  ["buy now".data, "click here".data, "limited time".data, "special offer".data,
   "discount".data, "promo code".data, "affiliate".data, "sponsored".data,
   "advertisement".data, "ad".data, "sale".data, "deal".data, "coupon".data,
   "free trial".data, "sign up".data, "register".data, "download now".data,
   "get started".data, "learn more".data, "visit our".data, "check out our".data,
   "follow us".data, "subscribe".data, "join our".data]

/-- PROMOTIONAL_DETECTION suspicious_url_patterns from `config.py`.  Each
regex is a literal string (dots escaped), so compiled with `re.IGNORECASE`
its `search` is a case-insensitive substring test. -/
def suspiciousUrlPatterns : List (List Char) :=
  ["bit.ly".data, "tinyurl".data, "goo.gl".data, "t.co".data, "ow.ly".data,
   "affiliate".data, "ref=".data, "utm_".data, "tracking".data, "campaign".data]

/-- PROMOTIONAL_DETECTION confidence_threshold. -/
def confidenceThreshold : ℚ := 7/10

/-- PROMOTIONAL_DETECTION weight_factors. -/
def weightKeywordDensity : ℚ := 4/10

/-- Weight of the URL sub-analysis. -/
def weightUrlAnalysis : ℚ := 3/10

/-- Weight of the author-behavior sub-analysis. -/
def weightAuthorBehavior : ℚ := 2/10

/-- Weight of the content-structure sub-analysis. -/
def weightContentStructure : ℚ := 1/10

/-- PROMOTIONAL_DETECTION enabled. -/
def promotionalDetectionEnabled : Bool := true

/-- SEARCH_CONFIG max_title_length. -/
def maxTitleLength : Nat := 300

/-- SEARCH_CONFIG max_content_length. -/
def maxContentLength : Nat := 10000

/-- Python built-in `min(a, b)` on floats (returns `a` on ties, which
agrees with the mathematical `min`). -/
def pyMin (a b : ℚ) : ℚ := if a ≤ b then a else b

/-! ## Python exceptions and upstream submission objects -/

/-- A raised Python exception: `AttributeError` is distinguished because
`getattr(obj, name, default)` swallows exactly that class. -/
inductive PyErr where
  | attributeError
  | other (msg : String)
deriving DecidableEq, Repr

/-- Rendering `str(e)` for error messages. -/
def pyErrStr : PyErr → String
  | .attributeError => "AttributeError"
  | .other m => m

/-- Python `getattr(obj, name, default)`: returns the default on
`AttributeError`, re-raises anything else. -/
def getattrD (f : Except PyErr α) (dflt : α) : Except PyErr α :=
  match f with
  | .ok v => .ok v
  | .error .attributeError => .ok dflt
  | .error (.other m) => .error (.other m)

/-- Python `hasattr(obj, name)`: true on success, false on
`AttributeError`, re-raises anything else. -/
def hasattrE (f : Except PyErr α) : Except PyErr Bool :=
  match f with
  | .ok _ => .ok true
  | .error .attributeError => .ok false
  | .error (.other m) => .error (.other m)

/-- A PRAW `Redditor` (submission author) as the detector reads it. -/
structure AuthorObj where
  name : Except PyErr (List Char)
  created_utc : Except PyErr Int
  link_karma : Except PyErr Int
  comment_karma : Except PyErr Int

/-- A PRAW `Submission` as the pipeline reads it.  Every attribute access
may raise (lazy fetch), hence the `Except PyErr` fields.  `created_utc`
is the upstream epoch timestamp in seconds. -/
structure Submission where
  id : Except PyErr (List Char)
  title : Except PyErr (List Char)
  selftext : Except PyErr (List Char)
  author : Except PyErr (Option AuthorObj)
  subreddit_display_name : Except PyErr (List Char)
  score : Except PyErr Int
  num_comments : Except PyErr Int
  over_18 : Except PyErr Bool
  created_utc : Except PyErr Int
  url : Except PyErr (List Char)
  permalink : Except PyErr (List Char)

/-! ## Promotional content detector (`PromotionalContentDetector`) -/

/-- Result dictionary of `_analyze_keywords`. -/
structure KeywordAnalysis where
  score : ℚ
  detected_keywords : List (List Char)
  keyword_count : Nat
  keyword_density : ℚ
deriving DecidableEq, Repr

/-- Contribution of one configured keyword to `keyword_count` in
`_analyze_keywords`: its occurrence count when it is contained in the
text, else 0. -/
def kwTermCount (text kw : List Char) : Nat :=
  if isSubstr kw text then countSub kw text else 0

/-- Total promotional-keyword occurrence count accumulated by the loop of
`_analyze_keywords`. -/
def kwTotalCount (text : List Char) : Nat :=
  (promotionalKeywords.map (kwTermCount text)).sum

/-- Embedding of `PromotionalContentDetector._analyze_keywords`
(`reddit_scraper.py` lines 437-459): for each configured keyword contained
in the text, add the occurrence count; density is count over
`max(word_count, 1)`; score is `min(density * 10, 1.0)`.  The config
keywords are lowercase literals, so `keyword.lower()` is the keyword
itself. -/
def analyzeKeywords (text : List Char) : KeywordAnalysis :=
  let detected := promotionalKeywords.filter (fun kw => isSubstr kw text)
  let kcount := kwTotalCount text
  let wc := wordCount text
  let density : ℚ := (kcount : ℚ) / ((max wc 1 : Nat) : ℚ)
  { score := pyMin (density * 10) 1, detected_keywords := detected,
    keyword_count := kcount, keyword_density := density }

/-- Result dictionary of `_analyze_urls`. -/
structure UrlAnalysis where
  score : ℚ
  suspicious_urls : List (List Char)
  total_suspicious_count : Nat
deriving DecidableEq, Repr

/-- Case-insensitive `pattern.search(u)` for the literal suspicious-URL
patterns. -/
def patternSearch (p u : List Char) : Bool := isSubstr p (u.map pyLower)

/-- Embedding of `PromotionalContentDetector._analyze_urls` (lines
461-491): the outbound URL (when truthy and different from the permalink)
contributes 0.3 per matching pattern; each URL found in the body text
contributes 0.2 per matching pattern; the score is capped at 1.0.
Attribute accesses (`url`, `permalink`, `selftext`) may raise; the
method itself catches nothing. -/
def analyzeUrls (s : Submission) : Except PyErr UrlAnalysis := do
  let u ← s.url
  let init : List (List Char) × ℚ ←
    if u ≠ [] then do
      let perma ← s.permalink
      if u ≠ perma then
        pure (suspiciousUrlPatterns.foldl
          (fun acc p => if patternSearch p u then (acc.1 ++ [u], acc.2 + 3/10) else acc)
          ([], 0))
      else pure ([], 0)
    else pure ([], 0)
  let st ← s.selftext
  let acc :=
    if st ≠ [] then
      (findUrls st).foldl (fun acc u2 =>
        suspiciousUrlPatterns.foldl
          (fun acc2 p => if patternSearch p u2 then (acc2.1 ++ [u2], acc2.2 + 2/10) else acc2)
          acc) init
    else init
  pure { score := pyMin acc.2 1, suspicious_urls := acc.1,
         total_suspicious_count := acc.1.length }

/-- Result dictionary of `_analyze_author_behavior`. -/
structure AuthorAnalysis where
  score : ℚ
  deleted_user : Bool
  new_account : Bool
  low_karma : Bool
  account_age_days : Option Int
  error : Option String
deriving DecidableEq, Repr

/-- Embedding of `PromotionalContentDetector._analyze_author_behavior`
(lines 493-525).  `score` starts at 0; an account younger than 30 days
adds 0.3; combined karma under 100 adds 0.2 (guarded by `hasattr` on both
karma fields, which swallows `AttributeError` only); any exception inside
the `try` is caught, keeping the score accumulated so far; the returned
score is `min(score, 1.0)`.  `account_age_days` is the floor of the age
in days (`timedelta.days` floor-divides). -/
def analyzeAuthorBehavior (now : Int) (s : Submission) : AuthorAnalysis :=
  match s.author with
  | .error e =>
    { score := pyMin 0 1, deleted_user := false, new_account := false,
      low_karma := false, account_age_days := none, error := some (pyErrStr e) }
  | .ok none =>
    { score := 0, deleted_user := true, new_account := false,
      low_karma := false, account_age_days := none, error := none }
  | .ok (some a) =>
    match a.created_utc with
    | .error e =>
      { score := pyMin 0 1, deleted_user := false, new_account := false,
        low_karma := false, account_age_days := none, error := some (pyErrStr e) }
    | .ok cu =>
      let days : Int := Int.fdiv (now - cu) 86400
      let newAcct := days < 30
      let s1 : ℚ := if newAcct then 3/10 else 0
      match hasattrE a.link_karma with
      | .error e =>
        { score := pyMin s1 1, deleted_user := false, new_account := newAcct,
          low_karma := false, account_age_days := none, error := some (pyErrStr e) }
      | .ok false =>
        { score := pyMin s1 1, deleted_user := false, new_account := newAcct,
          low_karma := false, account_age_days := some days, error := none }
      | .ok true =>
        match hasattrE a.comment_karma with
        | .error e =>
          { score := pyMin s1 1, deleted_user := false, new_account := newAcct,
            low_karma := false, account_age_days := none, error := some (pyErrStr e) }
        | .ok false =>
          { score := pyMin s1 1, deleted_user := false, new_account := newAcct,
            low_karma := false, account_age_days := some days, error := none }
        | .ok true =>
          match a.link_karma, a.comment_karma with
          | .ok lk, .ok ck =>
            let lowK := lk + ck < 100
            let s2 : ℚ := if lowK then 2/10 else 0
            { score := pyMin (s1 + s2) 1, deleted_user := false, new_account := newAcct,
              low_karma := lowK, account_age_days := some days, error := none }
          | .error e, _ =>
            { score := pyMin s1 1, deleted_user := false, new_account := newAcct,
              low_karma := false, account_age_days := none, error := some (pyErrStr e) }
          | _, .error e =>
            { score := pyMin s1 1, deleted_user := false, new_account := newAcct,
              low_karma := false, account_age_days := none, error := some (pyErrStr e) }

/-- Result dictionary of `_analyze_content_structure`. -/
structure StructureAnalysis where
  score : ℚ
  excessive_caps : Bool
  excessive_exclamation : Bool
  call_to_action : List (List Char)
  promotional_formatting : Bool
deriving DecidableEq, Repr

/-- Call-to-action phrases from `_analyze_content_structure` line 544
(the last phrase contains an apostrophe, character 39). -/
def ctaPhrases : List (List Char) :=
  ["click here".data, "buy now".data, "limited time".data, "act now".data,
   "don".data ++ [Char.ofNat 39] ++ "t miss".data]

/-- Embedding of `PromotionalContentDetector._analyze_content_structure`
(lines 527-558): +0.2 when the text is `isupper` and longer than 20
characters, +0.1 when it has more than three exclamation marks, +0.3 when
a call-to-action phrase occurs in `text.lower()`, +0.1 when `**` or `*`
occurs; score capped at 1.0. -/
def analyzeContentStructure (text : List Char) : StructureAnalysis :=
  let capsHit := pyIsUpper text && decide (text.length > 20)
  let s1 : ℚ := if capsHit then 2/10 else 0
  let exHit := decide (3 < countSub ['!'] text)
  let s2 : ℚ := if exHit then 1/10 else 0
  let ctaFound := ctaPhrases.filter (fun ph => isSubstr ph (text.map pyLower))
  let s3 : ℚ := if ctaFound ≠ [] then 3/10 else 0
  let fmtHit := isSubstr ('*' :: '*' :: []) text || isSubstr ('*' :: []) text
  let s4 : ℚ := if fmtHit then 1/10 else 0
  { score := pyMin (s1 + s2 + s3 + s4) 1, excessive_caps := capsHit,
    excessive_exclamation := exHit, call_to_action := ctaFound,
    promotional_formatting := fmtHit }

/-- The `analysis_details` dictionary of `analyze_post`: either the four
sub-analyses plus the final confidence, or the error marker set in the
`except` branch. -/
inductive AnalysisDetails where
  | ok (keyword_analysis : KeywordAnalysis) (url_analysis : UrlAnalysis)
      (author_analysis : AuthorAnalysis) (content_structure_analysis : StructureAnalysis)
      (final_confidence : ℚ)
  | error (msg : String)
deriving DecidableEq, Repr

/-- The `PromotionalAnalysis` dataclass (`reddit_scraper.py` lines 76-83). -/
structure PromotionalAnalysis where
  is_promotional : Bool
  confidence_score : ℚ
  detected_keywords : List (List Char)
  suspicious_urls : List (List Char)
  analysis_details : AnalysisDetails
deriving DecidableEq, Repr

/-- Body of the `try` block of `analyze_post` (lines 385-424): build the
lowercased combined text `title + " " + selftext`, run the four
sub-analyses, combine them with the configured weights and classify
against the confidence threshold. -/
def tryAnalyzePost (now : Int) (s : Submission) : Except PyErr PromotionalAnalysis := do
  let t ← s.title
  let st ← s.selftext
  let text := (t ++ ' ' :: st).map pyLower
  let kw := analyzeKeywords text
  let url ← analyzeUrls s
  let auth := analyzeAuthorBehavior now s
  let cs := analyzeContentStructure text
  let confidence := kw.score * weightKeywordDensity + url.score * weightUrlAnalysis +
    auth.score * weightAuthorBehavior + cs.score * weightContentStructure
  pure { is_promotional := decide (confidenceThreshold ≤ confidence),
         confidence_score := confidence,
         detected_keywords := kw.detected_keywords,
         suspicious_urls := url.suspicious_urls,
         analysis_details := .ok kw url auth cs confidence }

/-- Embedding of `PromotionalContentDetector.analyze_post` (lines
375-435): never raises; on any internal exception it returns the safe
default (non-promotional, confidence 0, empty indicator lists, error
marker in the details). -/
def analyze_post (now : Int) (s : Submission) : PromotionalAnalysis :=
  match tryAnalyzePost now s with
  | .ok r => r
  | .error e =>
    { is_promotional := false, confidence_score := 0, detected_keywords := [],
      suspicious_urls := [], analysis_details := .error (pyErrStr e) }

/-! ## Orchestrator data model (`RedditScraper`, `database.py` dataclasses) -/

/-- The `SearchParameters` dataclass (`reddit_scraper.py` lines 53-63).
`subreddits = None` and `subreddits = []` are both falsy in the scope
test, so the empty list models both. -/
structure SearchParameters where
  keywords : List String
  subreddits : List String := []
  time_filter : String := "week"
  sort : String := "relevance"
  limit : Nat := 100
  include_nsfw : Bool := false
  min_score : Int := 0
  min_comments : Int := 0
deriving DecidableEq, Repr

/-- The `RedditPost` dataclass persisted by `database.py`; datetimes are
modelled by epoch seconds. -/
structure RedditPost where
  reddit_id : List Char
  title : List Char
  content : Option (List Char)
  author : List Char
  subreddit : List Char
  score : Int
  num_comments : Int
  created_utc : Int
  url : List Char
  is_promotional : Bool
  collected_at : Int
deriving DecidableEq, Repr

/-- Body of the `try` block of `RedditScraper._passes_filters` (lines
725-752): score, comment-count, NSFW and length checks in source order;
any attribute access may raise. -/
def passesFiltersExc (s : Submission) (p : SearchParameters) : Except PyErr Bool := do
  let sc ← s.score
  if sc < p.min_score then return false
  let nc ← s.num_comments
  if nc < p.min_comments then return false
  let nsfw ← s.over_18
  if nsfw ∧ ¬ p.include_nsfw then return false
  let t ← s.title
  if maxTitleLength < t.length then return false
  let st ← s.selftext
  if st ≠ [] ∧ maxContentLength < st.length then return false
  return true

/-- Embedding of `RedditScraper._passes_filters`: the whole body is
wrapped in `try`, and any exception yields `False`. -/
def passes_filters (s : Submission) (p : SearchParameters) : Bool :=
  match passesFiltersExc s p with
  | .ok b => b
  | .error _ => false

/-- Body of the `try` block of `RedditScraper._submission_to_reddit_post`
(lines 756-769), with attribute accesses in the order the constructor
arguments are written. -/
def submissionToRedditPostExc (now : Int) (s : Submission) : Except PyErr RedditPost := do
  let id ← s.id
  let t ← s.title
  let st ← s.selftext
  let au ← s.author
  let authorName ←
    match au with
    | some a => a.name
    | none => pure "[deleted]".data
  let sub ← s.subreddit_display_name
  let sc ← s.score
  let nc ← s.num_comments
  let cu ← s.created_utc
  let u ← s.url
  pure { reddit_id := id, title := t,
         content := if st = [] then none else some st,
         author := authorName, subreddit := sub, score := sc, num_comments := nc,
         created_utc := cu, url := u, is_promotional := false, collected_at := now }

/-- The `except` branch of `_submission_to_reddit_post` (lines 770-785):
a minimal fallback object; the two `getattr` calls swallow only
`AttributeError`, so they can themselves raise. -/
def submissionFallback (now : Int) (s : Submission) : Except PyErr RedditPost := do
  let id ← getattrD s.id "unknown".data
  let t ← getattrD s.title "Error loading title".data
  pure { reddit_id := id, title := t, content := none, author := "[error]".data,
         subreddit := "unknown".data, score := 0, num_comments := 0,
         created_utc := now, url := [], is_promotional := false, collected_at := now }

/-- Embedding of `RedditScraper._submission_to_reddit_post`: the faithful
conversion, falling back to the minimal object on any exception; the
fallback itself may raise (a non-`AttributeError` from `getattr`). -/
def submission_to_reddit_post (now : Int) (s : Submission) : Except PyErr RedditPost :=
  match submissionToRedditPostExc now s with
  | .ok p => .ok p
  | .error _ => submissionFallback now s

/-- Body of the per-submission `try` block of `search_posts` (lines
633-655) after the `total_found` increment: `none` means the candidate
was silently rejected by the filters; `some post` is the accepted record
(with `is_promotional` set from the analysis when detection is enabled). -/
def processSubmission (now : Int) (p : SearchParameters) (s : Submission) :
    Except PyErr (Option RedditPost) := do
  if ¬ passes_filters s p then return none
  let post ← submission_to_reddit_post now s
  let post :=
    if promotionalDetectionEnabled then
      { post with is_promotional := (analyze_post now s).is_promotional }
    else post
  return some post

/-- Mutable loop state of `search_posts`. -/
structure LoopState where
  posts : List RedditPost
  errors : List String
  total_found : Nat
  promotional_count : Nat
deriving DecidableEq, Repr

/-- Error message built in the per-submission `except` branch (line 658);
the `getattr` there can itself raise, escalating to the outer handler. -/
def mkErrMsg (idv : List Char) (e : PyErr) : String :=
  "Error processing submission " ++ String.mk idv ++ ": " ++ pyErrStr e

/-- One iteration of the submission loop: increment `total_found`, run the
`try` body; on exception build the error message (whose `getattr` may
escalate) and append it.  The returned Bool records whether a post was
appended (the `limit` break check is only reached in that case). -/
def loopStep (now : Int) (p : SearchParameters) (s : Submission) (st : LoopState) :
    Except String (LoopState × Bool) :=
  let st := { st with total_found := st.total_found + 1 }
  match processSubmission now p s with
  | .ok none => .ok (st, false)
  | .ok (some post) =>
    let prom := promotionalDetectionEnabled && (analyze_post now s).is_promotional
    let st' := { st with posts := st.posts ++ [post],
                         promotional_count := st.promotional_count + (if prom then 1 else 0) }
    .ok (st', true)
  | .error e =>
    match getattrD s.id "unknown".data with
    | .ok idv => .ok ({ st with errors := st.errors ++ [mkErrMsg idv e] }, false)
    | .error e2 => .error (pyErrStr e2)

/-- The `for submission in submissions` loop (lines 632-661): processes
candidates in order, breaking once `limit` posts have been accepted; a
per-candidate escalation aborts with the state accumulated so far. -/
def processLoop (now : Int) (p : SearchParameters) :
    List Submission → LoopState → LoopState × Option String × Bool
  | [], st => (st, none, false)
  | s :: rest, st =>
    match loopStep now p s st with
    | .error e => (st, some e, false)
    | .ok (st', appended) =>
      if appended ∧ p.limit ≤ st'.posts.length then (st', none, true)
      else processLoop now p rest st'

/-- The `ScrapingResult` dataclass (lines 65-74); wall-clock
`execution_time` is not modelled. -/
structure ScrapingResult where
  posts : List RedditPost
  total_found : Nat
  total_processed : Nat
  promotional_count : Nat
  errors : List String
  search_id : Option Nat
deriving DecidableEq, Repr

/-- Outcome of one orchestration run: the returned aggregate plus the
terminal `update_search_status` write (status string and results count). -/
structure SearchOutcome where
  result : ScrapingResult
  finalStatus : String
  finalCount : Nat
deriving DecidableEq, Repr

/-- Embedding of `RedditScraper.search_posts` (lines 589-704) for a
materialised candidate stream: `subs` is the sequence the lazy search
yields and `streamErr` an exception the generator raises after them (a
failing network iteration); the search-history insert is modelled as
succeeding with id 1.  On normal completion the run is finalised
`completed` with `len(posts)`; a top-level exception appends the critical
error and finalises `failed` with 0, returning an empty aggregate. -/
def search_posts (now : Int) (p : SearchParameters)
    (subs : List Submission) (streamErr : Option String) : SearchOutcome :=
  let st0 : LoopState := ⟨[], [], 0, 0⟩
  let (st, escal, broke) := processLoop now p subs st0
  let critical :=
    match escal with
    | some e => some e
    | none => if broke then none else streamErr
  match critical with
  | none =>
    { result := { posts := st.posts, total_found := st.total_found,
                  total_processed := st.posts.length,
                  promotional_count := st.promotional_count,
                  errors := st.errors, search_id := some 1 },
      finalStatus := "completed", finalCount := st.posts.length }
  | some e =>
    { result := { posts := [], total_found := 0, total_processed := 0,
                  promotional_count := 0,
                  errors := st.errors ++ ["Critical error during search operation: " ++ e],
                  search_id := none },
      finalStatus := "failed", finalCount := 0 }

/-! ## Search fan-out (`search_posts` lines 619-629 and
`_search_multiple_subreddits` lines 706-723) -/

/-- One client search invocation issued by the orchestrator. -/
inductive ClientCall where
  | globalSearch (query sort time_filter : String) (limit : Nat)
  | subredditSearch (name query sort time_filter : String) (limit : Nat)
deriving DecidableEq, Repr

/-- Requested limit of a client call. -/
def ClientCall.limit : ClientCall → Nat
  | .globalSearch _ _ _ l => l
  | .subredditSearch _ _ _ _ l => l

/-- Embedding of the scope decision of `search_posts`: when `subreddits`
is truthy and not `['all']`, `_search_multiple_subreddits` issues one
scoped search per subreddit, each with limit
`max(1, limit // len(subreddits))`, in list order; otherwise one global
search with the full limit is issued.  The query is the keywords joined
by spaces. -/
def plannedCalls (p : SearchParameters) : List ClientCall :=
  let query := String.intercalate " " p.keywords
  if p.subreddits ≠ [] ∧ p.subreddits ≠ ["all"] then
    p.subreddits.map (fun name =>
      .subredditSearch name query p.sort p.time_filter
        (max 1 (p.limit / p.subreddits.length)))
  else
    [.globalSearch query p.sort p.time_filter p.limit]

/-! ## Content API client events (`RedditAPIClient`, `RateLimiter`) -/

/-- Observable actions of the Content API Client relevant to rate
limiting: the fixed minimum-delay wait of `_wait_for_rate_limit` (lines
184-195), an invocation of the sliding-window
`RateLimiter.wait_if_needed` (lines 330-348), and a network round-trip. -/
inductive ClientEvent where
  | fixedDelayWait
  | governorAcquire
  | networkCall
deriving DecidableEq, Repr

/-- Event trace of `RedditAPIClient.search_subreddit` (lines 197-240):
`self._wait_for_rate_limit()` first, then exactly one PRAW request
construct is issued (which branch of the sort dispatch only determines
the endpoint).  `self.rate_limiter.wait_if_needed` is nowhere called. -/
def searchSubredditTrace (sort : String) : List ClientEvent :=
  ClientEvent.fixedDelayWait ::
    (if sort = "relevance" then [ClientEvent.networkCall]
     else if sort = "hot" then [ClientEvent.networkCall]
     else if sort = "new" then [ClientEvent.networkCall]
     else if sort = "top" then [ClientEvent.networkCall]
     else [ClientEvent.networkCall])

/-- Event trace of `RedditAPIClient.search_all_reddit` (lines 242-279):
same shape as the scoped search. -/
def searchAllRedditTrace (sort : String) : List ClientEvent :=
  ClientEvent.fixedDelayWait ::
    (if sort = "relevance" then [ClientEvent.networkCall]
     else if sort = "hot" then [ClientEvent.networkCall]
     else if sort = "new" then [ClientEvent.networkCall]
     else if sort = "top" then [ClientEvent.networkCall]
     else [ClientEvent.networkCall])

/-! ## Persistence (`DatabaseManager.insert_posts_batch`, lines 289-322) -/

/-- The posts table: rows in insertion order; `reddit_id` is declared
UNIQUE, which `INSERT OR IGNORE` enforces by skipping conflicting
inserts. -/
def PostStore := List RedditPost

/-- One `INSERT OR IGNORE` of the batch loop: if a row with the same
`reddit_id` exists the statement is ignored (`rowcount = 0`), otherwise
the row is appended (`rowcount = 1`). -/
def insertOrIgnore (store : List RedditPost) (post : RedditPost) :
    List RedditPost × Nat :=
  if store.any (fun r => r.reddit_id = post.reddit_id) then (store, 0)
  else (store ++ [post], 1)

/-- Embedding of `DatabaseManager.insert_posts_batch`: insert each post
with `INSERT OR IGNORE`, counting the rows actually inserted. -/
def insert_posts_batch (store : List RedditPost) (posts : List RedditPost) :
    List RedditPost × Nat :=
  posts.foldl (fun acc post =>
    let (s', n) := insertOrIgnore acc.1 post
    (s', acc.2 + n)) (store, 0)

/-! ## Concrete inputs used by witnesses and counterexamples -/

/-- Extension of a text by further occurrences of configured keywords:
each element of `adds` is appended after a separating space. -/
def appendKeywords (t : List Char) : List (List Char) → List Char
  | [] => t
  | k :: ks => appendKeywords (t ++ ' ' :: k) ks

/-- A submission whose `title` attribute raises a non-`AttributeError`
exception. -/
def c2Sub : Submission :=
  { id := .ok "x1".data, title := .error (.other "boom"), selftext := .ok [],
    author := .ok none, subreddit_display_name := .ok "python".data,
    score := .ok 0, num_comments := .ok 0, over_18 := .ok false,
    created_utc := .ok 0, url := .ok [], permalink := .ok [] }

/-- A fully well-behaved submission (all attribute accesses succeed). -/
def c3Sub : Submission :=
  { id := .ok "x2".data, title := .ok "hello".data, selftext := .ok [],
    author := .ok none, subreddit_display_name := .ok "python".data,
    score := .ok 3, num_comments := .ok 1, over_18 := .ok false,
    created_utc := .ok 0, url := .ok "http://example.org/a".data,
    permalink := .ok "/r/python/x2".data }

/-- Search parameters requiring a positive score. -/
def c5Params : SearchParameters := { keywords := ["q"], min_score := 1 }

/-- A submission that passes every filter (score 5, 2 comments, short
title) but whose `subreddit` attribute raises during conversion, forcing
the fallback record with zeroed fields. -/
def c5Sub : Submission :=
  { id := .ok "abc".data, title := .ok "hello".data, selftext := .ok [],
    author := .ok none, subreddit_display_name := .error (.other "boom"),
    score := .ok 5, num_comments := .ok 2, over_18 := .ok false,
    created_utc := .ok 0, url := .ok "http://x".data, permalink := .ok "/r/p/x".data }

/-- A row for the persistence witnesses. -/
def c6Post : RedditPost :=
  { reddit_id := "abc".data, title := "t".data, content := none,
    author := "u".data, subreddit := "python".data, score := 1,
    num_comments := 0, created_utc := 0, url := "http://x".data,
    is_promotional := false, collected_at := 0 }

/-- The 30-across-3 fan-out request from the spec's testable property. -/
def c7Params30 : SearchParameters :=
  { keywords := ["k"], subreddits := ["a", "b", "c"], limit := 30 }

/-- A request with the `all` sentinel partition list. -/
def c7ParamsAll : SearchParameters := { keywords := ["k"], subreddits := ["all"] }

/-- An all-caps title longer than 20 characters (failing input for the
excessive-capitalization increment). -/
def c8Title : List Char := "THIS IS A HUGE MEGA EVENT".data

/-- The URL analysis value produced for `c3Sub` (nothing suspicious). -/
def c3Url : UrlAnalysis := { score := 0, suspicious_urls := [], total_suspicious_count := 0 }

/-- Default search parameters used by run-level witnesses. -/
def c9Params : SearchParameters := { keywords := ["k"] }

/-- A submission passing all filters of `c5Params` with every attribute
intact. -/
def c5PassSub : Submission :=
  { id := .ok "ok1".data, title := .ok "nice post".data, selftext := .ok [],
    author := .ok none, subreddit_display_name := .ok "python".data,
    score := .ok 7, num_comments := .ok 3, over_18 := .ok false,
    created_utc := .ok 0, url := .ok [], permalink := .ok [] }

/-- A submission whose `score` attribute raises, so evaluating the hard
filters themselves raises. -/
def c10Sub : Submission :=
  { id := .ok "x3".data, title := .ok "t".data, selftext := .ok [],
    author := .ok none, subreddit_display_name := .ok "python".data,
    score := .error (.other "lazy fetch failed"), num_comments := .ok 0,
    over_18 := .ok false, created_utc := .ok 0, url := .ok [], permalink := .ok [] }

/-! ## Helper lemmas -/

theorem pyMin_eq_min (a b : ℚ) : pyMin a b = min a b := (min_def a b).symm

theorem charToNat_ofNat {n : Nat} (h : n < 55296) : (Char.ofNat n).toNat = n := by
  rw [Char.ofNat, dif_pos (Or.inl h)]
  simp [Char.ofNatAux, Char.toNat, UInt32.ofNat', UInt32.toNat]

theorem asciiLower_pyLower (c : Char) (h : asciiAlpha (pyLower c) = true) :
    asciiLower (pyLower c) = true := by
  by_cases hc : 65 ≤ c.toNat ∧ c.toNat ≤ 90
  · have hv : (Char.ofNat (c.toNat + 32)).toNat = c.toNat + 32 :=
      charToNat_ofNat (by omega)
    simp only [pyLower, if_pos hc, asciiLower, hv, decide_eq_true_eq]
    omega
  · simp only [pyLower, if_neg hc] at h ⊢
    simp only [asciiAlpha, decide_eq_true_eq] at h
    simp only [asciiLower, decide_eq_true_eq]
    omega

theorem pyIsUpper_map_pyLower (t : List Char) : pyIsUpper (t.map pyLower) = false := by
  by_cases h : (t.map pyLower).any asciiAlpha = true
  · have hl : (t.map pyLower).any asciiLower = true := by
      simp only [List.any_map, List.any_eq_true, Function.comp] at h ⊢
      obtain ⟨c, hc, hca⟩ := h
      exact ⟨c, hc, asciiLower_pyLower c hca⟩
    simp [pyIsUpper, hl]
  · simp only [Bool.not_eq_true] at h
    simp [pyIsUpper, h]

/-! ## C1: rate limiting before network calls -/

/-- C1 counterexample: the claim says every search consults the sliding
window Quota Governor (`RateLimiter.wait_if_needed`) before its network
round-trip, but the traces of both search operations contain a network
call with no governor acquisition at all — `wait_if_needed` is never
invoked by the client. -/
theorem c1_counterexample :
    ClientEvent.networkCall ∈ searchSubredditTrace "relevance" ∧
    ClientEvent.governorAcquire ∉ searchSubredditTrace "relevance" ∧
    ClientEvent.networkCall ∈ searchAllRedditTrace "relevance" ∧
    ClientEvent.governorAcquire ∉ searchAllRedditTrace "relevance" := by
  decide

/-- C1 (amended): before the network round-trip of every subreddit-scoped
or global search invocation, the client performs its fixed minimum-delay
rate-limit wait (`_wait_for_rate_limit`); the sliding-window limiter's
acquire (`RateLimiter.wait_if_needed`) is never invoked. -/
theorem c1_fixed_delay_before_network (sort : String) :
    (∀ i : Nat, (searchSubredditTrace sort)[i]? = some ClientEvent.networkCall →
      ∃ j : Nat, j < i ∧ (searchSubredditTrace sort)[j]? = some ClientEvent.fixedDelayWait) ∧
    (∀ i : Nat, (searchAllRedditTrace sort)[i]? = some ClientEvent.networkCall →
      ∃ j : Nat, j < i ∧ (searchAllRedditTrace sort)[j]? = some ClientEvent.fixedDelayWait) ∧
    ClientEvent.governorAcquire ∉ searchSubredditTrace sort ∧
    ClientEvent.governorAcquire ∉ searchAllRedditTrace sort := by
  have h1 : searchSubredditTrace sort = [ClientEvent.fixedDelayWait, ClientEvent.networkCall] := by
    unfold searchSubredditTrace
    split_ifs <;> rfl
  have h2 : searchAllRedditTrace sort = [ClientEvent.fixedDelayWait, ClientEvent.networkCall] := by
    unfold searchAllRedditTrace
    split_ifs <;> rfl
  rw [h1, h2]
  refine ⟨?_, ?_, by decide, by decide⟩
  · intro i hi
    match i, hi with
    | 0, hi => exact absurd hi (by decide)
    | 1, _ => exact ⟨0, by omega, by decide⟩
    | n + 2, hi => exact absurd hi (by simp)
  · intro i hi
    match i, hi with
    | 0, hi => exact absurd hi (by decide)
    | 1, _ => exact ⟨0, by omega, by decide⟩
    | n + 2, hi => exact absurd hi (by simp)

/-- C1 witness: the amended theorem applied to the `hot` sort at the
network-call position of the scoped search trace. -/
theorem c1_witness :
    ((searchSubredditTrace "hot")[1]? = some ClientEvent.networkCall) ∧
    ∃ j : Nat, j < 1 ∧ (searchSubredditTrace "hot")[j]? = some ClientEvent.fixedDelayWait :=
  ⟨by decide, (c1_fixed_delay_before_network "hot").1 1 (by decide)⟩

/-! ## C2: the scorer never throws -/

/-- C2: for every submission (however malformed) on which the body of
`analyze_post` raises internally, `analyze_post` returns the safe default:
non-promotional, confidence 0.0, empty detected-keyword and
suspicious-URL lists, and the error marker in the analysis details;
`analyze_post` itself is a total function, so no exception escapes. -/
theorem c2_analyze_post_safe_default (now : Int) (s : Submission) (e : PyErr)
    (h : tryAnalyzePost now s = .error e) :
    analyze_post now s =
      { is_promotional := false, confidence_score := 0, detected_keywords := [],
        suspicious_urls := [], analysis_details := .error (pyErrStr e) } := by
  unfold analyze_post
  rw [h]

/-- C2 witness: a submission whose `title` access raises yields exactly
the safe default. -/
theorem c2_witness :
    tryAnalyzePost 0 c2Sub = .error (.other "boom") ∧
    analyze_post 0 c2Sub =
      { is_promotional := false, confidence_score := 0, detected_keywords := [],
        suspicious_urls := [], analysis_details := .error "boom" } :=
  ⟨by with_unfolding_all rfl,
   c2_analyze_post_safe_default 0 c2Sub (.other "boom") (by with_unfolding_all rfl)⟩

/-! ## C6: idempotent batch persistence -/

/-- C6: upserting a post whose `reddit_id` already has its (unique) row in
the store leaves the store unchanged (first write wins) and counts 0; and
starting from a store without the key, inserting the post twice leaves
exactly one row with that key, the second upsert returning 0. -/
theorem c6_upsert_idempotent (store : List RedditPost) (p : RedditPost) :
    (store.countP (fun r => r.reddit_id = p.reddit_id) = 1 →
      insert_posts_batch store [p] = (store, 0) ∧
      (insert_posts_batch store [p]).1.countP (fun r => r.reddit_id = p.reddit_id) = 1) ∧
    (store.countP (fun r => r.reddit_id = p.reddit_id) = 0 →
      insert_posts_batch store [p] = (store ++ [p], 1) ∧
      insert_posts_batch (store ++ [p]) [p] = (store ++ [p], 0) ∧
      (store ++ [p]).countP (fun r => r.reddit_id = p.reddit_id) = 1) := by
  have hsingle : ∀ st : List RedditPost,
      insert_posts_batch st [p] =
        if st.any (fun r => r.reddit_id = p.reddit_id) then (st, 0) else (st ++ [p], 1) := by
    intro st
    simp only [insert_posts_batch, List.foldl_cons, List.foldl_nil, insertOrIgnore]
    split <;> rfl
  constructor
  · intro h1
    have hmem : store.any (fun r => decide (r.reddit_id = p.reddit_id)) = true := by
      rw [List.any_eq_true]
      exact List.countP_pos_iff.mp (by omega)
    have hb := hsingle store
    rw [if_pos hmem] at hb
    exact ⟨hb, by rw [hb]; exact h1⟩
  · intro h0
    have hmem : ¬ store.any (fun r => decide (r.reddit_id = p.reddit_id)) = true := by
      intro hc
      have hpos := List.countP_pos_iff.mpr (List.any_eq_true.mp hc)
      omega
    have hmem2 : (store ++ [p]).any (fun r => decide (r.reddit_id = p.reddit_id)) = true := by
      rw [List.any_eq_true]
      exact ⟨p, List.mem_append.mpr (Or.inr (List.mem_singleton.mpr rfl)), by simp⟩
    have hb1 := hsingle store
    rw [if_neg hmem] at hb1
    have hb2 := hsingle (store ++ [p])
    rw [if_pos hmem2] at hb2
    refine ⟨hb1, hb2, ?_⟩
    rw [List.countP_append, h0]
    simp [List.countP_cons]

/-- C6 witness: concrete one-row store and fresh insertion. -/
theorem c6_witness :
    (([c6Post] : List RedditPost).countP (fun r => r.reddit_id = c6Post.reddit_id) = 1 ∧
      insert_posts_batch [c6Post] [c6Post] = ([c6Post], 0) ∧
      (insert_posts_batch [c6Post] [c6Post]).1.countP
        (fun r => r.reddit_id = c6Post.reddit_id) = 1) ∧
    (([] : List RedditPost).countP (fun r => r.reddit_id = c6Post.reddit_id) = 0 ∧
      insert_posts_batch [] [c6Post] = ([c6Post], 1) ∧
      insert_posts_batch ([] ++ [c6Post]) [c6Post] = ([] ++ [c6Post], 0) ∧
      (([] : List RedditPost) ++ [c6Post]).countP
        (fun r => r.reddit_id = c6Post.reddit_id) = 1) :=
  ⟨⟨by decide, (c6_upsert_idempotent [c6Post] c6Post).1 (by decide)⟩,
   ⟨by decide, (c6_upsert_idempotent [] c6Post).2 (by decide)⟩⟩

/-! ## C7: partition fan-out -/

/-- C7: with a non-empty partition list different from the `all` sentinel,
one scoped search is issued per partition in list order, each with limit
`max(1, limit / count)`; with an empty or sentinel list exactly one global
search is issued; in the 30-across-3 instance the per-partition limits sum
to at most 30 and each is at least 1. -/
theorem c7_partition_fanout :
    (∀ p : SearchParameters, p.subreddits ≠ [] → p.subreddits ≠ ["all"] →
      plannedCalls p = p.subreddits.map (fun name =>
        ClientCall.subredditSearch name (String.intercalate " " p.keywords) p.sort
          p.time_filter (max 1 (p.limit / p.subreddits.length))) ∧
      ∀ c ∈ plannedCalls p,
        c.limit = max 1 (p.limit / p.subreddits.length) ∧ 1 ≤ c.limit) ∧
    (∀ p : SearchParameters, p.subreddits = [] ∨ p.subreddits = ["all"] →
      plannedCalls p = [ClientCall.globalSearch (String.intercalate " " p.keywords)
        p.sort p.time_filter p.limit]) ∧
    ((plannedCalls c7Params30).map ClientCall.limit).sum ≤ 30 ∧
    (∀ c ∈ plannedCalls c7Params30, 1 ≤ c.limit) := by
  refine ⟨?_, ?_, by decide, by decide⟩
  · intro p h1 h2
    have hcond : p.subreddits ≠ [] ∧ p.subreddits ≠ ["all"] := ⟨h1, h2⟩
    have hplan : plannedCalls p = p.subreddits.map (fun name =>
        ClientCall.subredditSearch name (String.intercalate " " p.keywords) p.sort
          p.time_filter (max 1 (p.limit / p.subreddits.length))) := by
      simp only [plannedCalls, if_pos hcond]
    refine ⟨hplan, ?_⟩
    intro c hc
    rw [hplan] at hc
    obtain ⟨name, _, rfl⟩ := List.mem_map.mp hc
    exact ⟨rfl, le_max_left _ _⟩
  · intro p h
    rcases h with h | h <;> simp [plannedCalls, h]

/-- C7 witness: applying the fan-out theorem to the concrete three-named-
partition request and to the sentinel request. -/
theorem c7_witness :
    (plannedCalls c7Params30 = c7Params30.subreddits.map (fun name =>
        ClientCall.subredditSearch name (String.intercalate " " c7Params30.keywords)
          c7Params30.sort c7Params30.time_filter
          (max 1 (c7Params30.limit / c7Params30.subreddits.length))) ∧
      ∀ c ∈ plannedCalls c7Params30,
        c.limit = max 1 (c7Params30.limit / c7Params30.subreddits.length) ∧ 1 ≤ c.limit) ∧
    plannedCalls c7ParamsAll = [ClientCall.globalSearch
      (String.intercalate " " c7ParamsAll.keywords) c7ParamsAll.sort
      c7ParamsAll.time_filter c7ParamsAll.limit] := by
  constructor
  · exact c7_partition_fanout.1 c7Params30 (by decide) (by decide)
  · exact c7_partition_fanout.2.1 c7ParamsAll (Or.inr (by decide))

/-! ## C8: the excessive-capitalization increment is dead code -/

/-- C8 (code bug): `analyze_post` lowercases the combined text before
handing it to `_analyze_content_structure`, so `text.isupper()` is false
for every input and the +0.2 excessive-capitalization increment can never
fire.  At the all-caps failing input the structure sub-score is 0 instead
of the 0.2 the claim requires; in general `isupper` of a lowercased text
is always false. -/
theorem c8_caps_increment_never_fires :
    pyIsUpper c8Title = true ∧ 20 < c8Title.length ∧
    (analyzeContentStructure ((c8Title ++ ' ' :: ([] : List Char)).map pyLower)).excessive_caps
      = false ∧
    (analyzeContentStructure ((c8Title ++ ' ' :: ([] : List Char)).map pyLower)).score = 0 ∧
    ∀ t : List Char, pyIsUpper (t.map pyLower) = false :=
  ⟨by decide, by decide, by with_unfolding_all decide, by with_unfolding_all decide,
   pyIsUpper_map_pyLower⟩

/-! ## C3: boundedness of all scores -/

theorem pyMin_one_bounds {x : ℚ} (hx : 0 ≤ x) : 0 ≤ pyMin x 1 ∧ pyMin x 1 ≤ 1 := by
  rw [pyMin_eq_min]
  exact ⟨le_min hx zero_le_one, min_le_right x 1⟩

theorem analyzeKeywords_score_bounds (text : List Char) :
    0 ≤ (analyzeKeywords text).score ∧ (analyzeKeywords text).score ≤ 1 := by
  simp only [analyzeKeywords]
  exact pyMin_one_bounds (by positivity)

theorem analyzeContentStructure_score_bounds (text : List Char) :
    0 ≤ (analyzeContentStructure text).score ∧ (analyzeContentStructure text).score ≤ 1 := by
  simp only [analyzeContentStructure]
  exact pyMin_one_bounds (by split_ifs <;> norm_num)

set_option maxHeartbeats 1000000 in
theorem analyzeAuthorBehavior_score_bounds (now : Int) (s : Submission) :
    0 ≤ (analyzeAuthorBehavior now s).score ∧ (analyzeAuthorBehavior now s).score ≤ 1 := by
  have hb : ∀ x : ℚ, (0 ≤ x) → 0 ≤ pyMin x 1 ∧ pyMin x 1 ≤ 1 := fun x hx => pyMin_one_bounds hx
  unfold analyzeAuthorBehavior
  split
  · exact hb _ (by norm_num)
  · exact ⟨le_refl 0, zero_le_one⟩
  · split
    · exact hb _ (by norm_num)
    · rename AuthorObj => au
      rcases hlk : au.link_karma with (_ | m) | lk
      · refine hb _ ?_
        split_ifs <;> norm_num
      · refine hb _ ?_
        split_ifs <;> norm_num
      · rcases hck : au.comment_karma with (_ | m2) | ck
        · refine hb _ ?_
          split_ifs <;> norm_num
        · refine hb _ ?_
          split_ifs <;> norm_num
        · refine hb _ ?_
          split_ifs <;> norm_num

theorem fold03_snd_le (u0 : List Char) (l : List (List Char))
    (acc : List (List Char) × ℚ) :
    acc.2 ≤ (l.foldl
      (fun acc p => if patternSearch p u0 then (acc.1 ++ [u0], acc.2 + 3/10) else acc)
      acc).2 := by
  induction l generalizing acc with
  | nil => exact le_refl _
  | cons a l ih =>
    refine le_trans ?_ (ih _)
    dsimp only
    split_ifs <;> simp <;> norm_num

theorem fold02_snd_le (u2 : List Char) (l : List (List Char))
    (acc : List (List Char) × ℚ) :
    acc.2 ≤ (l.foldl
      (fun acc2 p => if patternSearch p u2 then (acc2.1 ++ [u2], acc2.2 + 2/10) else acc2)
      acc).2 := by
  induction l generalizing acc with
  | nil => exact le_refl _
  | cons a l ih =>
    refine le_trans ?_ (ih _)
    dsimp only
    split_ifs <;> simp <;> norm_num

theorem foldUrls_snd_le (urls : List (List Char)) (acc : List (List Char) × ℚ) :
    acc.2 ≤ (urls.foldl (fun acc u2 =>
      suspiciousUrlPatterns.foldl
        (fun acc2 p => if patternSearch p u2 then (acc2.1 ++ [u2], acc2.2 + 2/10) else acc2)
        acc) acc).2 := by
  induction urls generalizing acc with
  | nil => exact le_refl _
  | cons a l ih => exact le_trans (fold02_snd_le a suspiciousUrlPatterns acc) (ih _)

theorem except_bind_ok {ε α β : Type} (v : α) (k : α → Except ε β) :
    (Except.ok v >>= k) = k v := rfl

theorem except_bind_error {ε α β : Type} (e : ε) (k : α → Except ε β) :
    ((Except.error e : Except ε α) >>= k) = Except.error e := rfl

theorem except_pure_bind {ε α β : Type} (v : α) (k : α → Except ε β) :
    ((pure v : Except ε α) >>= k) = k v := rfl

theorem except_pure_eq {ε α : Type} (v : α) : (pure v : Except ε α) = Except.ok v := rfl

theorem analyzeUrls_ok_shape (s : Submission) (u : UrlAnalysis)
    (h : analyzeUrls s = .ok u) : ∃ q : ℚ, 0 ≤ q ∧ u.score = pyMin q 1 := by
  unfold analyzeUrls at h
  cases hurl : s.url with
  | error e =>
    rw [hurl] at h
    simp only [except_bind_error] at h
    exact absurd h (by simp)
  | ok u0 =>
    rw [hurl] at h
    simp only [except_bind_ok] at h
    by_cases hu0 : u0 ≠ []
    · rw [if_pos hu0] at h
      cases hperma : s.permalink with
      | error e =>
        rw [hperma] at h
        simp only [except_bind_error] at h
        exact absurd h (by simp)
      | ok perma =>
        rw [hperma] at h
        simp only [except_bind_ok] at h
        by_cases hne : u0 ≠ perma
        · rw [if_pos hne] at h
          simp only [except_pure_bind] at h
          cases hst : s.selftext with
          | error e =>
            rw [hst] at h
            simp only [except_bind_error] at h
            exact absurd h (by simp)
          | ok st0 =>
            rw [hst] at h
            simp only [except_bind_ok, except_pure_eq, Except.ok.injEq] at h
            rw [← h]
            dsimp only
            split_ifs
            · exact ⟨_, le_trans (fold03_snd_le u0 suspiciousUrlPatterns ([], 0))
                (foldUrls_snd_le _ _), rfl⟩
            · exact ⟨_, fold03_snd_le u0 suspiciousUrlPatterns ([], 0), rfl⟩
        · rw [if_neg hne] at h
          simp only [except_pure_bind] at h
          cases hst : s.selftext with
          | error e =>
            rw [hst] at h
            simp only [except_bind_error] at h
            exact absurd h (by simp)
          | ok st0 =>
            rw [hst] at h
            simp only [except_bind_ok, except_pure_eq, Except.ok.injEq] at h
            rw [← h]
            dsimp only
            split_ifs
            · exact ⟨_, foldUrls_snd_le _ ([], 0), rfl⟩
            · exact ⟨0, le_refl 0, rfl⟩
    · rw [if_neg hu0] at h
      simp only [except_pure_bind] at h
      cases hst : s.selftext with
      | error e =>
        rw [hst] at h
        simp only [except_bind_error] at h
        exact absurd h (by simp)
      | ok st0 =>
        rw [hst] at h
        simp only [except_bind_ok, except_pure_eq, Except.ok.injEq] at h
        rw [← h]
        dsimp only
        split_ifs
        · exact ⟨_, foldUrls_snd_le _ ([], 0), rfl⟩
        · exact ⟨0, le_refl 0, rfl⟩

theorem tryAnalyzePost_ok_confidence (now : Int) (s : Submission) (r : PromotionalAnalysis)
    (h : tryAnalyzePost now s = .ok r) :
    ∃ (text : List Char) (url : UrlAnalysis), analyzeUrls s = .ok url ∧
      r.confidence_score =
        (analyzeKeywords text).score * weightKeywordDensity +
        url.score * weightUrlAnalysis +
        (analyzeAuthorBehavior now s).score * weightAuthorBehavior +
        (analyzeContentStructure text).score * weightContentStructure := by
  unfold tryAnalyzePost at h
  cases ht : s.title with
  | error e =>
    rw [ht] at h
    simp only [except_bind_error] at h
    exact absurd h (by simp)
  | ok t =>
    rw [ht] at h
    simp only [except_bind_ok] at h
    cases hst : s.selftext with
    | error e =>
      rw [hst] at h
      simp only [except_bind_error] at h
      exact absurd h (by simp)
    | ok st0 =>
      rw [hst] at h
      simp only [except_bind_ok] at h
      cases hu : analyzeUrls s with
      | error e =>
        rw [hu] at h
        simp only [except_bind_error] at h
        exact absurd h (by simp)
      | ok url =>
        rw [hu] at h
        simp only [except_bind_ok, except_pure_eq, Except.ok.injEq] at h
        exact ⟨(t ++ ' ' :: st0).map pyLower, url, rfl, by rw [← h]⟩

/-- C3: each of the four sub-scores lies in [0,1] (the URL sub-score
whenever the URL analysis returns at all), and the final weighted
confidence of `analyze_post` lies in [0,1] for every submission,
regardless of how many keywords or suspicious URLs the input contains. -/
theorem c3_scores_bounded (now : Int) (s : Submission) (text : List Char) :
    (0 ≤ (analyzeKeywords text).score ∧ (analyzeKeywords text).score ≤ 1) ∧
    (0 ≤ (analyzeContentStructure text).score ∧ (analyzeContentStructure text).score ≤ 1) ∧
    (0 ≤ (analyzeAuthorBehavior now s).score ∧ (analyzeAuthorBehavior now s).score ≤ 1) ∧
    (∀ u : UrlAnalysis, analyzeUrls s = .ok u → 0 ≤ u.score ∧ u.score ≤ 1) ∧
    (0 ≤ (analyze_post now s).confidence_score ∧
      (analyze_post now s).confidence_score ≤ 1) := by
  have hurl : ∀ u : UrlAnalysis, analyzeUrls s = .ok u → 0 ≤ u.score ∧ u.score ≤ 1 := by
    intro u hu
    obtain ⟨q, hq, hsc⟩ := analyzeUrls_ok_shape s u hu
    rw [hsc]
    exact pyMin_one_bounds hq
  refine ⟨analyzeKeywords_score_bounds text, analyzeContentStructure_score_bounds text,
    analyzeAuthorBehavior_score_bounds now s, hurl, ?_⟩
  unfold analyze_post
  cases htry : tryAnalyzePost now s with
  | error e => exact ⟨le_refl 0, zero_le_one⟩
  | ok r =>
    obtain ⟨text2, url, hu, hconf⟩ := tryAnalyzePost_ok_confidence now s r htry
    show 0 ≤ r.confidence_score ∧ r.confidence_score ≤ 1
    rw [hconf]
    obtain ⟨ha0, ha1⟩ := analyzeKeywords_score_bounds text2
    obtain ⟨hc0, hc1⟩ := analyzeContentStructure_score_bounds text2
    obtain ⟨hb0, hb1⟩ := analyzeAuthorBehavior_score_bounds now s
    obtain ⟨hu0, hu1⟩ := hurl url hu
    unfold weightKeywordDensity weightUrlAnalysis weightAuthorBehavior weightContentStructure
    constructor <;> nlinarith [ha0, ha1, hc0, hc1, hb0, hb1, hu0, hu1]

/-- C3 witness: the URL-analysis clause applied to a concrete submission
whose URL analysis succeeds. -/
theorem c3_witness :
    analyzeUrls c3Sub = .ok c3Url ∧ 0 ≤ c3Url.score ∧ c3Url.score ≤ 1 :=
  ⟨by with_unfolding_all rfl,
   (c3_scores_bounded 0 c3Sub []).2.2.2.1 c3Url (by with_unfolding_all rfl)⟩

/-! ## Orchestrator lemmas (C5, C9, C10) -/

theorem passes_filters_exc_true (s : Submission) (p : SearchParameters)
    (h : passes_filters s p = true) : passesFiltersExc s p = .ok true := by
  unfold passes_filters at h
  cases hx : passesFiltersExc s p with
  | ok b => rw [hx] at h; rw [show b = true from h]
  | error e => rw [hx] at h; exact absurd h (by simp)

theorem passes_filters_true_inv (s : Submission) (p : SearchParameters)
    (h : passes_filters s p = true) :
    ∃ (sc nc : Int) (nsfw : Bool) (t st : List Char),
      s.score = .ok sc ∧ p.min_score ≤ sc ∧
      s.num_comments = .ok nc ∧ p.min_comments ≤ nc ∧
      s.over_18 = .ok nsfw ∧ (nsfw = true → p.include_nsfw = true) ∧
      s.title = .ok t ∧ t.length ≤ maxTitleLength ∧
      s.selftext = .ok st ∧ st.length ≤ maxContentLength := by
  have hx := passes_filters_exc_true s p h
  unfold passesFiltersExc at hx
  cases hsc : s.score with
  | error e => rw [hsc] at hx; simp only [except_bind_error] at hx; exact absurd hx (by simp)
  | ok sc =>
    rw [hsc] at hx
    simp only [except_bind_ok] at hx
    by_cases h1 : sc < p.min_score
    · rw [if_pos h1] at hx
      exact absurd hx (by simp [except_pure_eq])
    · rw [if_neg h1] at hx
      simp only [except_pure_bind] at hx
      cases hnc : s.num_comments with
      | error e =>
        rw [hnc] at hx; simp only [except_bind_error] at hx; exact absurd hx (by simp)
      | ok nc =>
        rw [hnc] at hx
        simp only [except_bind_ok] at hx
        by_cases h2 : nc < p.min_comments
        · rw [if_pos h2] at hx
          exact absurd hx (by simp [except_pure_eq])
        · rw [if_neg h2] at hx
          cases hns : s.over_18 with
          | error e =>
            rw [hns] at hx; simp only [except_bind_error] at hx; exact absurd hx (by simp)
          | ok nsfw =>
            rw [hns] at hx
            simp only [except_bind_ok] at hx
            by_cases h3 : nsfw = true ∧ ¬ p.include_nsfw = true
            · rw [if_pos h3] at hx
              exact absurd hx (by simp [except_pure_eq])
            · rw [if_neg h3] at hx
              cases hti : s.title with
              | error e =>
                rw [hti] at hx; simp only [except_bind_error] at hx
                exact absurd hx (by simp)
              | ok t =>
                rw [hti] at hx
                simp only [except_bind_ok] at hx
                by_cases h4 : maxTitleLength < t.length
                · rw [if_pos h4] at hx
                  exact absurd hx (by simp [except_pure_eq])
                · rw [if_neg h4] at hx
                  cases hse : s.selftext with
                  | error e =>
                    rw [hse] at hx; simp only [except_bind_error] at hx
                    exact absurd hx (by simp)
                  | ok st0 =>
                    rw [hse] at hx
                    simp only [except_bind_ok] at hx
                    by_cases h5 : st0 ≠ [] ∧ maxContentLength < st0.length
                    · rw [if_pos h5] at hx
                      exact absurd hx (by simp [except_pure_eq])
                    · refine ⟨sc, nc, nsfw, t, st0, rfl, by omega, rfl, by omega,
                        rfl, ?_, rfl, by omega, rfl, ?_⟩
                      · intro hb
                        by_contra hni
                        exact h3 ⟨hb, hni⟩
                      · by_cases hst0 : st0 = []
                        · rw [hst0]
                          simp [maxContentLength]
                        · have : ¬ maxContentLength < st0.length := fun hc => h5 ⟨hst0, hc⟩
                          omega

theorem submissionToRedditPostExc_ok_fields (now : Int) (s : Submission) (q : RedditPost)
    (h : submissionToRedditPostExc now s = .ok q) :
    s.score = .ok q.score ∧ s.num_comments = .ok q.num_comments ∧ s.title = .ok q.title := by
  unfold submissionToRedditPostExc at h
  cases hid : s.id with
  | error e => rw [hid] at h; simp only [except_bind_error] at h; exact absurd h (by simp)
  | ok idv =>
  rw [hid] at h
  simp only [except_bind_ok] at h
  cases hti : s.title with
  | error e => rw [hti] at h; simp only [except_bind_error] at h; exact absurd h (by simp)
  | ok t =>
  rw [hti] at h
  simp only [except_bind_ok] at h
  cases hse : s.selftext with
  | error e => rw [hse] at h; simp only [except_bind_error] at h; exact absurd h (by simp)
  | ok st0 =>
  rw [hse] at h
  simp only [except_bind_ok] at h
  cases hau : s.author with
  | error e => rw [hau] at h; simp only [except_bind_error] at h; exact absurd h (by simp)
  | ok au =>
  rw [hau] at h
  simp only [except_bind_ok] at h
  cases au with
  | none =>
    simp only [except_pure_bind] at h
    cases hsub : s.subreddit_display_name with
    | error e => rw [hsub] at h; simp only [except_bind_error] at h; exact absurd h (by simp)
    | ok sub =>
    rw [hsub] at h
    simp only [except_bind_ok] at h
    cases hsc : s.score with
    | error e => rw [hsc] at h; simp only [except_bind_error] at h; exact absurd h (by simp)
    | ok sc =>
    rw [hsc] at h
    simp only [except_bind_ok] at h
    cases hnc : s.num_comments with
    | error e => rw [hnc] at h; simp only [except_bind_error] at h; exact absurd h (by simp)
    | ok nc =>
    rw [hnc] at h
    simp only [except_bind_ok] at h
    cases hcu : s.created_utc with
    | error e => rw [hcu] at h; simp only [except_bind_error] at h; exact absurd h (by simp)
    | ok cu =>
    rw [hcu] at h
    simp only [except_bind_ok] at h
    cases hu : s.url with
    | error e => rw [hu] at h; simp only [except_bind_error] at h; exact absurd h (by simp)
    | ok u0 =>
    rw [hu] at h
    simp only [except_bind_ok, except_pure_eq, Except.ok.injEq] at h
    subst h
    exact ⟨rfl, rfl, rfl⟩
  | some a =>
    dsimp only at h
    cases hnm : a.name with
    | error e => rw [hnm] at h; simp only [except_bind_error] at h; exact absurd h (by simp)
    | ok nm =>
    rw [hnm] at h
    simp only [except_bind_ok] at h
    cases hsub : s.subreddit_display_name with
    | error e => rw [hsub] at h; simp only [except_bind_error] at h; exact absurd h (by simp)
    | ok sub =>
    rw [hsub] at h
    simp only [except_bind_ok] at h
    cases hsc : s.score with
    | error e => rw [hsc] at h; simp only [except_bind_error] at h; exact absurd h (by simp)
    | ok sc =>
    rw [hsc] at h
    simp only [except_bind_ok] at h
    cases hnc : s.num_comments with
    | error e => rw [hnc] at h; simp only [except_bind_error] at h; exact absurd h (by simp)
    | ok nc =>
    rw [hnc] at h
    simp only [except_bind_ok] at h
    cases hcu : s.created_utc with
    | error e => rw [hcu] at h; simp only [except_bind_error] at h; exact absurd h (by simp)
    | ok cu =>
    rw [hcu] at h
    simp only [except_bind_ok] at h
    cases hu : s.url with
    | error e => rw [hu] at h; simp only [except_bind_error] at h; exact absurd h (by simp)
    | ok u0 =>
    rw [hu] at h
    simp only [except_bind_ok, except_pure_eq, Except.ok.injEq] at h
    subst h
    exact ⟨rfl, rfl, rfl⟩

theorem getattrD_ok (v : α) (d : α) : getattrD (Except.ok v) d = .ok v := rfl

theorem processSubmission_ok_some_inv (now : Int) (p : SearchParameters) (s : Submission)
    (post : RedditPost) (h : processSubmission now p s = .ok (some post)) :
    passes_filters s p = true ∧
    ∃ q : RedditPost, submission_to_reddit_post now s = .ok q ∧
      post.score = q.score ∧ post.num_comments = q.num_comments ∧ post.title = q.title := by
  unfold processSubmission at h
  by_cases hpf : passes_filters s p = true
  · rw [if_neg (by simp [hpf])] at h
    refine ⟨hpf, ?_⟩
    cases hc : submission_to_reddit_post now s with
    | error e =>
      rw [hc] at h
      simp only [except_pure_bind, except_bind_error] at h
      exact absurd h (by simp)
    | ok q =>
      rw [hc] at h
      simp only [except_pure_bind, except_bind_ok] at h
      rw [if_pos (by rfl : promotionalDetectionEnabled = true)] at h
      simp only [except_pure_bind, except_bind_ok, except_pure_eq, Except.ok.injEq,
        Option.some.injEq] at h
      exact ⟨q, rfl, by rw [← h], by rw [← h], by rw [← h]⟩
  · rw [if_pos (by simpa using hpf)] at h
    exact absurd h (by simp [except_pure_eq])

theorem processSubmission_error_inv (now : Int) (p : SearchParameters) (s : Submission)
    (e : PyErr) (h : processSubmission now p s = .error e) :
    passes_filters s p = true ∧ submission_to_reddit_post now s = .error e := by
  unfold processSubmission at h
  by_cases hpf : passes_filters s p = true
  · rw [if_neg (by simp [hpf])] at h
    refine ⟨hpf, ?_⟩
    cases hc : submission_to_reddit_post now s with
    | error e2 =>
      rw [hc] at h
      simp only [except_pure_bind, except_bind_error] at h
      injection h with he
      rw [he]
    | ok q =>
      rw [hc] at h
      simp only [except_pure_bind, except_bind_ok] at h
      rw [if_pos (by rfl : promotionalDetectionEnabled = true)] at h
      exact absurd h (by simp [except_pure_eq])
  · rw [if_pos (by simpa using hpf)] at h
    exact absurd h (by simp [except_pure_eq])

theorem conversion_error_fallback (now : Int) (s : Submission) (e : PyErr)
    (h : submission_to_reddit_post now s = .error e) :
    submissionFallback now s = .error e := by
  unfold submission_to_reddit_post at h
  cases hm : submissionToRedditPostExc now s with
  | ok q => rw [hm] at h; exact absurd h (by simp)
  | error e2 => rw [hm] at h; exact h

theorem submissionFallback_error_inv (now : Int) (s : Submission) (e : PyErr)
    (h : submissionFallback now s = .error e) :
    getattrD s.id "unknown".data = .error e ∨
    (∃ idv, getattrD s.id "unknown".data = .ok idv ∧
      getattrD s.title "Error loading title".data = .error e) := by
  unfold submissionFallback at h
  cases hid : getattrD s.id "unknown".data with
  | error e1 =>
    rw [hid] at h
    simp only [except_bind_error] at h
    injection h with he
    exact Or.inl (by rw [he])
  | ok idv =>
    rw [hid] at h
    simp only [except_bind_ok] at h
    cases hti : getattrD s.title "Error loading title".data with
    | error e2 =>
      rw [hti] at h
      simp only [except_bind_error] at h
      cases h
      exact Or.inr ⟨idv, rfl, rfl⟩
    | ok t =>
      rw [hti] at h
      simp only [except_bind_ok] at h
      exact absurd h (by simp [except_pure_eq])

theorem loopStep_ok_errors (now : Int) (p : SearchParameters) (s : Submission)
    (st st' : LoopState) (b : Bool) (h : loopStep now p s st = .ok (st', b)) :
    st'.errors = st.errors := by
  unfold loopStep at h
  cases hps : processSubmission now p s with
  | ok o =>
    rw [hps] at h
    cases o with
    | none =>
      simp only [Except.ok.injEq, Prod.mk.injEq] at h
      rw [← h.1]
    | some post =>
      simp only [Except.ok.injEq, Prod.mk.injEq] at h
      rw [← h.1]
  | error e =>
    rw [hps] at h
    obtain ⟨hpf, hconv⟩ := processSubmission_error_inv now p s e hps
    rcases submissionFallback_error_inv now s e
        (conversion_error_fallback now s e hconv) with hid | ⟨idv, hid, htit⟩
    · rw [hid] at h
      exact absurd h (by simp)
    · obtain ⟨_, _, _, t, _, _, _, _, _, _, _, hti, _, _, _⟩ :=
        passes_filters_true_inv s p hpf
      rw [hti, getattrD_ok] at htit
      exact absurd htit (by simp)

theorem loopStep_ok_posts (now : Int) (p : SearchParameters) (s : Submission)
    (st st' : LoopState) (b : Bool) (h : loopStep now p s st = .ok (st', b)) :
    st'.posts = st.posts ∨
    ∃ post, st'.posts = st.posts ++ [post] ∧ processSubmission now p s = .ok (some post) := by
  unfold loopStep at h
  cases hps : processSubmission now p s with
  | ok o =>
    rw [hps] at h
    cases o with
    | none =>
      simp only [Except.ok.injEq, Prod.mk.injEq] at h
      exact Or.inl (by rw [← h.1])
    | some post =>
      simp only [Except.ok.injEq, Prod.mk.injEq] at h
      exact Or.inr ⟨post, by rw [← h.1], rfl⟩
  | error e =>
    rw [hps] at h
    cases hid : getattrD s.id "unknown".data with
    | ok idv =>
      rw [hid] at h
      simp only [Except.ok.injEq, Prod.mk.injEq] at h
      exact Or.inl (by rw [← h.1])
    | error e2 =>
      rw [hid] at h
      exact absurd h (by simp)

theorem loopStep_filtered (now : Int) (p : SearchParameters) (s : Submission)
    (st : LoopState) (hpf : passes_filters s p = false) :
    loopStep now p s st = .ok ({ st with total_found := st.total_found + 1 }, false) := by
  have hps : processSubmission now p s = .ok none := by
    unfold processSubmission
    rw [if_pos (by simp [hpf])]
    rfl
  unfold loopStep
  rw [hps]

theorem processLoop_errors_eq (now : Int) (p : SearchParameters) :
    ∀ (subs : List Submission) (st : LoopState),
      (processLoop now p subs st).1.errors = st.errors := by
  intro subs
  induction subs with
  | nil => intro st; rfl
  | cons s rest ih =>
    intro st
    unfold processLoop
    cases hls : loopStep now p s st with
    | error e => rfl
    | ok pr =>
      obtain ⟨st', b⟩ := pr
      have he := loopStep_ok_errors now p s st st' b hls
      dsimp only
      split
      · exact he
      · rw [ih st', he]

theorem processLoop_posts_from (now : Int) (p : SearchParameters) :
    ∀ (subs : List Submission) (st : LoopState) (post : RedditPost),
      post ∈ (processLoop now p subs st).1.posts →
      post ∈ st.posts ∨ ∃ s ∈ subs, processSubmission now p s = .ok (some post) := by
  intro subs
  induction subs with
  | nil => intro st post hm; exact Or.inl hm
  | cons s rest ih =>
    intro st post hm
    rw [processLoop] at hm
    revert hm
    cases hls : loopStep now p s st with
    | error e => exact fun hm => Or.inl hm
    | ok pr =>
      obtain ⟨st', b⟩ := pr
      dsimp only
      intro hm
      have hstep := loopStep_ok_posts now p s st st' b hls
      have hmem : post ∈ st'.posts →
          post ∈ st.posts ∨ ∃ x ∈ s :: rest, processSubmission now p x = .ok (some post) := by
        intro hin
        rcases hstep with heq | ⟨post2, heq, hproc⟩
        · exact Or.inl (heq ▸ hin)
        · rw [heq, List.mem_append, List.mem_singleton] at hin
          rcases hin with hin | rfl
          · exact Or.inl hin
          · exact Or.inr ⟨s, List.mem_cons_self s rest, hproc⟩
      revert hm
      split
      · exact fun hm => hmem hm
      · intro hm
        rcases ih st' post hm with hin | ⟨x, hx, hproc⟩
        · exact hmem hin
        · exact Or.inr ⟨x, List.mem_cons_of_mem s hx, hproc⟩

theorem search_posts_cases (now : Int) (p : SearchParameters) (subs : List Submission)
    (serr : Option String) :
    ((search_posts now p subs serr).finalStatus = "failed" ∧
      (search_posts now p subs serr).result.posts = [] ∧
      (search_posts now p subs serr).result.total_processed = 0 ∧
      (search_posts now p subs serr).result.errors ≠ []) ∨
    ((search_posts now p subs serr).finalStatus = "completed" ∧
      (search_posts now p subs serr).result.posts =
        (processLoop now p subs ⟨[], [], 0, 0⟩).1.posts ∧
      (search_posts now p subs serr).result.errors =
        (processLoop now p subs ⟨[], [], 0, 0⟩).1.errors ∧
      (search_posts now p subs serr).result.total_processed =
        (search_posts now p subs serr).result.posts.length ∧
      (search_posts now p subs serr).finalCount =
        (search_posts now p subs serr).result.posts.length) := by
  unfold search_posts
  dsimp only
  rcases hpl : processLoop now p subs ⟨[], [], 0, 0⟩ with ⟨st, escal, broke⟩
  dsimp only
  cases escal with
  | some e => exact Or.inl ⟨rfl, rfl, rfl, by simp⟩
  | none =>
    dsimp only
    cases broke with
    | true => exact Or.inr ⟨rfl, rfl, rfl, rfl, rfl⟩
    | false =>
      cases serr with
      | none => exact Or.inr ⟨rfl, rfl, rfl, rfl, rfl⟩
      | some e => exact Or.inl ⟨rfl, rfl, rfl, by simp⟩

/-! ## C9: zero-posts-with-errors runs end failed -/

/-- C9: a run returning zero posts while holding at least one error is
exactly the critical-failure path: the aggregate has `total_processed = 0`
and the search-history record is finalised `failed`; a run that ends with
an empty error list is finalised `completed` with its result count, so the
two outcomes are distinguishable. -/
theorem c9_zero_posts_with_errors_failed (now : Int) (p : SearchParameters)
    (subs : List Submission) (serr : Option String) :
    ((search_posts now p subs serr).result.posts = [] ∧
      (search_posts now p subs serr).result.errors ≠ [] →
      (search_posts now p subs serr).finalStatus = "failed" ∧
      (search_posts now p subs serr).result.total_processed = 0) ∧
    ((search_posts now p subs serr).result.errors = [] →
      (search_posts now p subs serr).finalStatus = "completed" ∧
      (search_posts now p subs serr).finalCount =
        (search_posts now p subs serr).result.posts.length) := by
  rcases search_posts_cases now p subs serr with ⟨hf, _, ht, he⟩ | ⟨hc, _, he, _, hfc⟩
  · exact ⟨fun _ => ⟨hf, ht⟩, fun h0 => absurd h0 he⟩
  · constructor
    · rintro ⟨_, hne⟩
      exfalso
      apply hne
      rw [he, processLoop_errors_eq]
    · intro _
      exact ⟨hc, hfc⟩

/-- C9 witness: a failing candidate stream (the lazy iterator raises) with
zero collected posts versus a legitimately empty stream. -/
theorem c9_witness :
    (((search_posts 0 c9Params [] (some "Connection reset")).finalStatus = "failed" ∧
      (search_posts 0 c9Params [] (some "Connection reset")).result.total_processed = 0)) ∧
    (((search_posts 0 c9Params [] none).finalStatus = "completed" ∧
      (search_posts 0 c9Params [] none).finalCount =
        (search_posts 0 c9Params [] none).result.posts.length)) :=
  ⟨(c9_zero_posts_with_errors_failed 0 c9Params [] (some "Connection reset")).1
      (by with_unfolding_all decide),
   (c9_zero_posts_with_errors_failed 0 c9Params [] none).2
      (by with_unfolding_all decide)⟩

/-! ## C10: exceptions inside the filter check reject silently -/

/-- C10: when evaluating the hard filters itself raises, `_passes_filters`
returns false, and the loop treats the candidate exactly like any
filtered-out one: it is neither accepted nor recorded as an error, only
`total_found` advances and processing continues with the rest. -/
theorem c10_filter_exception_silent (now : Int) (p : SearchParameters) (s : Submission)
    (e : PyErr) (h : passesFiltersExc s p = .error e) :
    passes_filters s p = false ∧
    ∀ (rest : List Submission) (st : LoopState),
      processLoop now p (s :: rest) st =
        processLoop now p rest { st with total_found := st.total_found + 1 } := by
  have hpf : passes_filters s p = false := by
    unfold passes_filters
    rw [h]
  refine ⟨hpf, ?_⟩
  intro rest st
  rw [processLoop, loopStep_filtered now p s st hpf]
  dsimp only
  rw [if_neg (by simp)]

/-- C10 witness: a submission whose `score` attribute raises is silently
dropped by the loop. -/
theorem c10_witness :
    passesFiltersExc c10Sub c9Params = .error (.other "lazy fetch failed") ∧
    passes_filters c10Sub c9Params = false ∧
    processLoop 0 c9Params [c10Sub] ⟨[], [], 0, 0⟩ =
      processLoop 0 c9Params [] ⟨[], [], 0 + 1, 0⟩ := by
  have h := c10_filter_exception_silent 0 c9Params c10Sub (.other "lazy fetch failed")
    (by with_unfolding_all rfl)
  exact ⟨by with_unfolding_all rfl, h.1, h.2 [] ⟨[], [], 0, 0⟩⟩

/-! ## C5: filters on accepted posts -/

/-- C5 counterexample: a candidate that passes every filter (score 5
against `min_score = 1`) but whose `subreddit` attribute raises during
conversion is accepted into the result batch as the fallback record with
`score = 0`, so the accepted post violates `score >= min_score`. -/
theorem c5_counterexample :
    ¬ (∀ post ∈ (search_posts 0 c5Params [c5Sub] none).result.posts,
        c5Params.min_score ≤ post.score) := by
  with_unfolding_all decide

/-- C5 (amended): every accepted candidate passed the hard filters, so
the candidate attribute values the filter read satisfy
`score >= min_score`, `reply_count >= min_comments`, NSFW only when
`include_nsfw`, and the title/body ceilings; whenever the faithful
conversion succeeded (no fallback) the stored record inherits these
values, so its score, comment count and title length satisfy the same
bounds; filter-failing candidates are rejected silently, advancing only
`total_found` and never touching the error list. -/
theorem c5_accepted_pass_filters (now : Int) (p : SearchParameters) :
    (∀ s : Submission, passes_filters s p = true →
      ∃ (sc nc : Int) (nsfw : Bool) (t st : List Char),
        s.score = .ok sc ∧ p.min_score ≤ sc ∧
        s.num_comments = .ok nc ∧ p.min_comments ≤ nc ∧
        s.over_18 = .ok nsfw ∧ (nsfw = true → p.include_nsfw = true) ∧
        s.title = .ok t ∧ t.length ≤ maxTitleLength ∧
        s.selftext = .ok st ∧ st.length ≤ maxContentLength) ∧
    (∀ (subs : List Submission) (serr : Option String) (post : RedditPost),
      post ∈ (search_posts now p subs serr).result.posts →
      ∃ s ∈ subs, passes_filters s p = true ∧
        ((∃ qm, submissionToRedditPostExc now s = .ok qm) →
          p.min_score ≤ post.score ∧ p.min_comments ≤ post.num_comments ∧
          post.title.length ≤ maxTitleLength)) ∧
    (∀ (s : Submission) (rest : List Submission) (st : LoopState),
      passes_filters s p = false →
      processLoop now p (s :: rest) st =
        processLoop now p rest { st with total_found := st.total_found + 1 }) := by
  refine ⟨fun s h => passes_filters_true_inv s p h, ?_, ?_⟩
  · intro subs serr post hmem
    rcases search_posts_cases now p subs serr with ⟨_, hp, _, _⟩ | ⟨_, hp, _, _, _⟩
    · rw [hp] at hmem
      exact absurd hmem (List.not_mem_nil post)
    · rw [hp] at hmem
      rcases processLoop_posts_from now p subs ⟨[], [], 0, 0⟩ post hmem with
        hin | ⟨s, hs, hproc⟩
      · exact absurd hin (List.not_mem_nil post)
      · obtain ⟨hpf, q, hconv, hps, hpn, hpt⟩ :=
          processSubmission_ok_some_inv now p s post hproc
        refine ⟨s, hs, hpf, ?_⟩
        rintro ⟨qm, hqm⟩
        have hconv2 : submission_to_reddit_post now s = .ok qm := by
          unfold submission_to_reddit_post
          rw [hqm]
        rw [hconv2] at hconv
        injection hconv with hq
        obtain ⟨hfs, hfn, hft⟩ := submissionToRedditPostExc_ok_fields now s qm hqm
        obtain ⟨sc, nc, nsfw, t, st0, hsc2, hmin, hnc2, hminc, _, _, hti2, htlen, _, _⟩ :=
          passes_filters_true_inv s p hpf
        rw [hsc2] at hfs
        injection hfs with hqs
        rw [hnc2] at hfn
        injection hfn with hqn
        rw [hti2] at hft
        injection hft with hqt
        refine ⟨?_, ?_, ?_⟩
        · rw [hps, ← hq, ← hqs]
          exact hmin
        · rw [hpn, ← hq, ← hqn]
          exact hminc
        · rw [hpt, ← hq, ← hqt]
          exact htlen
  · intro s rest st hpf
    rw [processLoop, loopStep_filtered now p s st hpf]
    dsimp only
    rw [if_neg (by simp)]

/-- C5 witness: the filter-inversion clause applied to a concrete
candidate accepted under `min_score = 1`. -/
theorem c5_witness :
    passes_filters c5PassSub c5Params = true ∧
    ∃ (sc nc : Int) (nsfw : Bool) (t st : List Char),
      c5PassSub.score = .ok sc ∧ c5Params.min_score ≤ sc ∧
      c5PassSub.num_comments = .ok nc ∧ c5Params.min_comments ≤ nc ∧
      c5PassSub.over_18 = .ok nsfw ∧ (nsfw = true → c5Params.include_nsfw = true) ∧
      c5PassSub.title = .ok t ∧ t.length ≤ maxTitleLength ∧
      c5PassSub.selftext = .ok st ∧ st.length ≤ maxContentLength :=
  ⟨by with_unfolding_all rfl,
   (c5_accepted_pass_filters 0 c5Params).1 c5PassSub (by with_unfolding_all rfl)⟩

/-! ## C4: keyword-density monotonicity -/

theorem countSubAux_nil (p : List Char) (k : Nat) : countSubAux p k [] = 0 := by
  cases k <;> rfl

theorem countSubAux_eq_zero (p : List Char) :
    ∀ (s : List Char) (k : Nat), s.length < p.length + k → countSubAux p k s = 0 := by
  intro s
  induction s with
  | nil => intro k _; exact countSubAux_nil p k
  | cons c t ih =>
    intro k hlen
    cases k with
    | zero =>
      have hnp : ¬ p.isPrefixOf (c :: t) = true := by
        intro hpre
        have hle := List.IsPrefix.length_le (List.isPrefixOf_iff_prefix.mp hpre)
        simp only [List.length_cons] at hle hlen
        omega
      simp only [countSubAux]
      rw [if_neg hnp]
      refine ih 0 ?_
      simp only [List.length_cons] at hlen
      omega
    | succ k =>
      simp only [countSubAux]
      refine ih k ?_
      simp only [List.length_cons] at hlen
      omega

theorem countSubAux_append_mono (p : List Char) :
    ∀ (s : List Char) (k : Nat) (u : List Char),
      countSubAux p k s ≤ countSubAux p k (s ++ u) := by
  intro s
  induction s with
  | nil =>
    intro k u
    rw [List.nil_append, countSubAux_nil]
    exact Nat.zero_le _
  | cons c t ih =>
    intro k u
    rw [List.cons_append]
    cases k with
    | zero =>
      by_cases hA : p.isPrefixOf (c :: t) = true
      · have hB : p.isPrefixOf (c :: (t ++ u)) = true := by
          rw [List.isPrefixOf_iff_prefix] at hA ⊢
          refine hA.trans ?_
          rw [← List.cons_append]
          exact List.prefix_append _ _
        simp only [countSubAux]
        rw [if_pos hA, if_pos hB]
        exact Nat.succ_le_succ (ih _ u)
      · by_cases hB : p.isPrefixOf (c :: (t ++ u)) = true
        · have hlen : (c :: t).length < p.length := by
            by_contra hge
            push_neg at hge
            have hct : (c :: t) <+: (c :: (t ++ u)) := by
              rw [← List.cons_append]
              exact List.prefix_append _ _
            have hpre := List.prefix_of_prefix_length_le
              (List.isPrefixOf_iff_prefix.mp hB) hct hge
            exact hA (List.isPrefixOf_iff_prefix.mpr hpre)
          simp only [countSubAux]
          rw [if_neg hA, if_pos hB]
          have h0 : countSubAux p 0 t = 0 := by
            refine countSubAux_eq_zero p t 0 ?_
            simp only [List.length_cons] at hlen
            omega
          rw [h0]
          omega
        · simp only [countSubAux]
          rw [if_neg hA, if_neg hB]
          exact ih 0 u
    | succ k =>
      simp only [countSubAux]
      exact ih k u

theorem countSubAux_self_pos (p : List Char) (hp : p ≠ []) : 1 ≤ countSubAux p 0 p := by
  match p, hp with
  | c :: p', _ =>
    have hpre : (c :: p').isPrefixOf (c :: p') = true :=
      List.isPrefixOf_iff_prefix.mpr (List.prefix_refl _)
    simp only [countSubAux]
    rw [if_pos hpre]
    omega

theorem countSubAux_append_self (p : List Char) (hp : p ≠ []) :
    ∀ (t : List Char) (k : Nat), k ≤ t.length →
      countSubAux p k t + 1 ≤ countSubAux p k (t ++ ' ' :: p) := by
  intro t
  induction t with
  | nil =>
    intro k hk
    have hk0 : k = 0 := by simpa using hk
    subst hk0
    rw [List.nil_append]
    by_cases hA : p.isPrefixOf (' ' :: p) = true
    · simp only [countSubAux]
      rw [if_pos hA]
      omega
    · simp only [countSubAux]
      rw [if_neg hA]
      have := countSubAux_self_pos p hp
      omega
  | cons c t' ih =>
    intro k hk
    rw [List.cons_append]
    cases k with
    | zero =>
      by_cases hA : p.isPrefixOf (c :: t') = true
      · have hB : p.isPrefixOf (c :: (t' ++ ' ' :: p)) = true := by
          rw [List.isPrefixOf_iff_prefix] at hA ⊢
          refine hA.trans ?_
          rw [← List.cons_append]
          exact List.prefix_append _ _
        have hlp : p.length - 1 ≤ t'.length := by
          have hle := List.IsPrefix.length_le (List.isPrefixOf_iff_prefix.mp hA)
          simp only [List.length_cons] at hle
          omega
        simp only [countSubAux]
        rw [if_pos hA, if_pos hB]
        have := ih (p.length - 1) hlp
        omega
      · by_cases hB : p.isPrefixOf (c :: (t' ++ ' ' :: p)) = true
        · have hlen : (c :: t').length < p.length := by
            by_contra hge
            push_neg at hge
            have hct : (c :: t') <+: (c :: (t' ++ ' ' :: p)) := by
              rw [← List.cons_append]
              exact List.prefix_append _ _
            have hpre := List.prefix_of_prefix_length_le
              (List.isPrefixOf_iff_prefix.mp hB) hct hge
            exact hA (List.isPrefixOf_iff_prefix.mpr hpre)
          simp only [countSubAux]
          rw [if_neg hA, if_pos hB]
          have h0 : countSubAux p 0 t' = 0 := by
            refine countSubAux_eq_zero p t' 0 ?_
            simp only [List.length_cons] at hlen
            omega
          rw [h0]
          omega
        · simp only [countSubAux]
          rw [if_neg hA, if_neg hB]
          exact ih 0 (Nat.zero_le _)
    | succ k =>
      simp only [countSubAux]
      refine ih k ?_
      simp only [List.length_cons] at hk
      omega

theorem isSubstr_iff_pos (p : List Char) (hp : p ≠ []) :
    ∀ s : List Char, isSubstr p s = true ↔ 0 < countSubAux p 0 s := by
  intro s
  induction s with
  | nil =>
    rw [countSubAux_nil]
    simp [isSubstr, hp]
  | cons c t ih =>
    have hred : countSubAux p 0 (c :: t)
        = if p.isPrefixOf (c :: t) then countSubAux p (p.length - 1) t + 1
          else countSubAux p 0 t := rfl
    have hsub : isSubstr p (c :: t) = (p.isPrefixOf (c :: t) || isSubstr p t) := rfl
    rw [hred, hsub]
    by_cases hA : p.isPrefixOf (c :: t) = true
    · rw [if_pos hA, hA]
      simp
    · have hA0 : p.isPrefixOf (c :: t) = false := by
        cases hB : p.isPrefixOf (c :: t)
        · rfl
        · exact absurd hB hA
      rw [if_neg hA, hA0]
      simpa using ih

theorem kwTermCount_eq (text kw : List Char) (hk : kw ≠ []) :
    kwTermCount text kw = countSub kw text := by
  unfold kwTermCount countSub
  by_cases hin : isSubstr kw text = true
  · rw [if_pos hin]
  · rw [if_neg hin]
    have hiff := isSubstr_iff_pos kw hk text
    have : ¬ 0 < countSubAux kw 0 text := fun hpos => hin (hiff.mpr hpos)
    omega

theorem sum_map_succ_le {α : Type} (l : List α) (f g : α → Nat) (a : α) (ha : a ∈ l)
    (hpt : ∀ x ∈ l, f x ≤ g x) (hb : f a + 1 ≤ g a) :
    (l.map f).sum + 1 ≤ (l.map g).sum := by
  induction l with
  | nil => exact absurd ha (List.not_mem_nil a)
  | cons b l ih =>
    simp only [List.map_cons, List.sum_cons]
    rcases List.mem_cons.mp ha with rfl | hal
    · have hrest : (l.map f).sum ≤ (l.map g).sum :=
        List.sum_le_sum (fun x hx => hpt x (List.mem_cons_of_mem _ hx))
      omega
    · have hhead := hpt b (List.mem_cons_self b l)
      have := ih hal (fun x hx => hpt x (List.mem_cons_of_mem _ hx))
      omega

theorem promotionalKeywords_facts :
    ∀ kw ∈ promotionalKeywords, kw ≠ [] ∧ 1 ≤ wordCount kw ∧ wordCount kw ≤ 10 := by
  decide

theorem kwTotalCount_bump (text kw : List Char) (hkw : kw ∈ promotionalKeywords) :
    kwTotalCount text + 1 ≤ kwTotalCount (text ++ ' ' :: kw) := by
  unfold kwTotalCount
  refine sum_map_succ_le promotionalKeywords (kwTermCount text)
    (kwTermCount (text ++ ' ' :: kw)) kw hkw ?_ ?_
  · intro x hx
    have hx0 := (promotionalKeywords_facts x hx).1
    rw [kwTermCount_eq text x hx0, kwTermCount_eq (text ++ ' ' :: kw) x hx0]
    exact countSubAux_append_mono x text 0 (' ' :: kw)
  · have hk0 := (promotionalKeywords_facts kw hkw).1
    rw [kwTermCount_eq text kw hk0, kwTermCount_eq (text ++ ' ' :: kw) kw hk0]
    exact countSubAux_append_self kw hk0 text 0 (Nat.zero_le _)

theorem wcAux_cons (b : Bool) (c : Char) (t : List Char) :
    wcAux b (c :: t) = if isPySpace c then wcAux false t
      else (if b then 0 else 1) + wcAux true t := rfl

theorem wcAux_append (d : List Char) :
    ∀ (a : List Char) (b : Bool), wcAux b (a ++ ' ' :: d) = wcAux b a + wcAux false d := by
  intro a
  induction a with
  | nil =>
    intro b
    rw [List.nil_append, wcAux_cons, if_pos (show isPySpace ' ' = true from by decide)]
    have h0 : wcAux b [] = 0 := rfl
    omega
  | cons c a' ih =>
    intro b
    rw [List.cons_append, wcAux_cons, wcAux_cons]
    by_cases hc : isPySpace c = true
    · rw [if_pos hc, if_pos hc, ih false]
    · rw [if_neg hc, if_neg hc, ih true]
      omega

theorem wordCount_append (t kw : List Char) :
    wordCount (t ++ ' ' :: kw) = wordCount t + wordCount kw := wcAux_append kw t false

theorem kw_score_step_arith (C Cn W K : Nat) (hC : C + 1 ≤ Cn) (hK1 : 1 ≤ K) (hK : K ≤ 10) :
    pyMin ((C : ℚ) / ((max W 1 : Nat) : ℚ) * 10) 1
      ≤ pyMin ((Cn : ℚ) / ((max (W + K) 1 : Nat) : ℚ) * 10) 1 := by
  rw [pyMin_eq_min, pyMin_eq_min]
  have hw : (1 : ℚ) ≤ ((max W 1 : Nat) : ℚ) := by exact_mod_cast Nat.le_max_right W 1
  have hw0 : (0 : ℚ) < ((max W 1 : Nat) : ℚ) := lt_of_lt_of_le zero_lt_one hw
  have hmax : max (W + K) 1 = W + K := Nat.max_eq_left (by omega)
  rw [hmax]
  have hw'0 : (0 : ℚ) < ((W + K : Nat) : ℚ) := by
    exact_mod_cast (show 0 < W + K by omega)
  have hww : ((W + K : Nat) : ℚ) ≤ ((max W 1 : Nat) : ℚ) + 10 := by
    exact_mod_cast (show W + K ≤ max W 1 + 10 by omega)
  have hCC : (C : ℚ) + 1 ≤ (Cn : ℚ) := by exact_mod_cast hC
  rcases le_or_lt 1 ((C : ℚ) / ((max W 1 : Nat) : ℚ) * 10) with h1 | h1
  · rw [min_eq_right h1]
    refine le_min ?_ le_rfl
    rw [div_mul_eq_mul_div, le_div_iff hw'0, one_mul]
    rw [div_mul_eq_mul_div, le_div_iff hw0, one_mul] at h1
    linarith
  · rw [min_eq_left (le_of_lt h1)]
    refine le_min ?_ (le_of_lt h1)
    rw [div_mul_eq_mul_div, div_mul_eq_mul_div, div_le_div_iff hw0 hw'0]
    rw [div_mul_eq_mul_div, div_lt_iff hw0, one_mul] at h1
    nlinarith [mul_le_mul_of_nonneg_left hww
        (show (0 : ℚ) ≤ (C : ℚ) * 10 from by positivity),
      mul_le_mul_of_nonneg_right hCC (le_of_lt hw0),
      mul_lt_mul_of_pos_right h1 (show (0 : ℚ) < 10 from by norm_num)]

theorem analyzeKeywords_score_step (text kw : List Char) (hkw : kw ∈ promotionalKeywords) :
    (analyzeKeywords text).score ≤ (analyzeKeywords (text ++ ' ' :: kw)).score := by
  show pyMin ((kwTotalCount text : ℚ) / ((max (wordCount text) 1 : Nat) : ℚ) * 10) 1
      ≤ pyMin ((kwTotalCount (text ++ ' ' :: kw) : ℚ) /
          ((max (wordCount (text ++ ' ' :: kw)) 1 : Nat) : ℚ) * 10) 1
  rw [wordCount_append text kw]
  have hf := promotionalKeywords_facts kw hkw
  exact kw_score_step_arith (kwTotalCount text) (kwTotalCount (text ++ ' ' :: kw))
    (wordCount text) (wordCount kw) (kwTotalCount_bump text kw hkw) hf.2.1 hf.2.2

/-- C4: appending configured promotional keywords (separated by a space) to a
text never decreases the keyword-analysis score of
`PromotionalContentDetector._analyze_keywords`: each appended keyword raises
the total occurrence count by at least one while adding at most ten words, and
`min(density * 10, 1.0)` is monotone under that change. -/
theorem c4_keyword_density_monotone (text : List Char) (adds : List (List Char))
    (h : ∀ a ∈ adds, a ∈ promotionalKeywords) :
    (analyzeKeywords text).score ≤ (analyzeKeywords (appendKeywords text adds)).score := by
  induction adds generalizing text with
  | nil => exact le_rfl
  | cons k ks ih =>
    have h1 : (analyzeKeywords text).score ≤ (analyzeKeywords (text ++ ' ' :: k)).score :=
      analyzeKeywords_score_step text k (h k (List.mem_cons_self k ks))
    have h2 := ih (text ++ ' ' :: k) (fun a ha => h a (List.mem_cons_of_mem _ ha))
    exact le_trans h1 h2

theorem c4_witness :
    (∀ a ∈ [("sale").data], a ∈ promotionalKeywords) ∧
    (analyzeKeywords ("hello world").data).score
      ≤ (analyzeKeywords (appendKeywords ("hello world").data [("sale").data])).score :=
  ⟨by decide, c4_keyword_density_monotone ("hello world").data [("sale").data] (by decide)⟩
